import Mathlib

/-!
# HostResolverTenta: the name-resolution bridge

A shallow embedding of `runtime/browser/android/net/host_resolver_tenta.cc`.

The resolver object, the caller-owned output buffers, the two task runners
and the record of callback invocations are the fields of one `State`; each
member function of the source is a function on that state.  One call of a
member function is one atomic step, which is the view the registry lock
`reqGuard` is there to give.

Raw pointers to `SavedRequest` objects are modelled as allocation numbers:
every `new SavedRequest` takes a fresh number, an object is live exactly
while the registry owns it, and dereferencing a pointer whose object has
been deleted is undefined behaviour, rendered as `none`.
-/

namespace xwalk.tenta

/-! ## Status codes -/

/-- Success status of `net/base/net_errors.h`. -/
def OK : Int := 0

/-- Deferred completion: the result will arrive through the callback. -/
def ERR_IO_PENDING : Int := -1

/-- The hostname could not be resolved. -/
def ERR_NAME_NOT_RESOLVED : Int := -105

/-- The foreign subsystem is unavailable. -/
def ERR_DNS_SERVER_FAILED : Int := -802

/-- The cache holds nothing for the hostname. -/
def ERR_DNS_CACHE_MISS : Int := -804

/-! ## Data model -/

/-- The part of `HostResolver::RequestInfo` the resolver reads: `hostname()` and `port()`. -/
structure RequestInfo where
  hostname : String
  port : Nat
deriving DecidableEq, Repr

/-- Priority of a request; stored by `SavedRequest` and never read. -/
abbrev RequestPriority := Nat

/-- An IP address: its bytes (`uint8_t`). -/
abbrev IPAddress := List Nat

/-- An address with a port. -/
structure IPEndPoint where
  address : IPAddress
  port : Nat
deriving DecidableEq, Repr

/-- Modelled from the spec: the declaration of `net::AddressList` is not in the
repository; the spec's address result is "an ordered sequence of resolved
network endpoints". -/
abbrev AddressList := List IPEndPoint

/-- Modelled from the spec: `AddressList::CopyWithPort` is library code outside
the repository; the spec's address result is built "with a caller-supplied
port value applied uniformly", the order of the endpoints kept. -/
def AddressList.CopyWithPort (list : AddressList) (port : Nat) : AddressList :=
  list.map (fun e => IPEndPoint.mk e.address port)

/-- A completion callback: `none` is the null callback (`is_null()`), `some c`
a callback identified by the token `c`. -/
abbrev CompletionCallback := Option Nat

/-- A foreign byte array (`jbyteArray`): signed bytes. -/
abbrev JByteArray := List Int

/-- A foreign array of byte arrays (`jobjectArray`); `none` is the null reference. -/
abbrev JObjectArray := Option (List JByteArray)

/-- The cancellation handle handed back through `out_req`. -/
inductive Request where
  | RequestForCaller (key_id : Int)
  | ofBackup (token : Nat)
deriving DecidableEq, Repr

/-- The `out_req` parameter: `none` is a null pointer, `some r` a pointer to a
slot currently holding `r`. -/
abbrev OutReq := Option (Option Request)

/-- The class `HostResolverTenta::SavedRequest`.  `addresses_` is the address of
the caller-owned output buffer. -/
structure SavedRequest where
  info_ : RequestInfo
  priority_ : RequestPriority
  callback_ : CompletionCallback
  addresses_ : Nat
  when_created_ : Int
  sent_to_java_ : Bool
deriving DecidableEq, Repr

namespace SavedRequest

/-- The constructor: `sent_to_java_(false)`. -/
def create (when_created : Int) (info : RequestInfo) (priority : RequestPriority)
    (callback : CompletionCallback) (addresses : Nat) : SavedRequest :=
  SavedRequest.mk info priority callback addresses when_created false

/-- The method `Cancel()`: `callback_.Reset()`. -/
def Cancel (r : SavedRequest) : SavedRequest :=
  { r with callback_ := none }

/-- The method `was_canceled()`: `callback_.is_null()`. -/
def was_canceled (r : SavedRequest) : Bool :=
  r.callback_.isNone

/-- The method `sent_to_java()`. -/
def sent_to_java (r : SavedRequest) : SavedRequest :=
  { r with sent_to_java_ := true }

/-- The method `was_sent_to_java()`. -/
def was_sent_to_java (r : SavedRequest) : Bool :=
  r.sent_to_java_

end SavedRequest

/-- One element of `requests_`: the key and the owned object, `ptr` being the
object's address. -/
structure Entry where
  key : Int
  ptr : Nat
  obj : SavedRequest
deriving DecidableEq, Repr

/-- Modelled from the spec: the declaration of `requests_` is in the header,
which is not in the repository; the spec's Registry is a "mapping from request
id to Request" whose only operations are insert, find and erase.  It is kept as
a list of entries; the first entry under a key is the one the key maps to. -/
abbrev Registry := List Entry

namespace Registry

/-- The lookup `requests_.find(key)`; `none` is `requests_.end()`. -/
def find (key : Int) (m : Registry) : Option Entry :=
  List.find? (fun e => e.key == key) m

/-- The insertion `requests_.insert(std::make_pair(key, request))`: a map keeps
the element it already has under the key and drops the new one. -/
def insert (e : Entry) (m : Registry) : Registry :=
  match find e.key m with
  | some _ => m
  | none => e :: m

/-- The removal `requests_.erase(it)` for the iterator found under `key`. -/
def erase (key : Int) (m : Registry) : Registry :=
  List.filter (fun e => e.key != key) m

/-- An update of the object the iterator found under `key` points to (`it->second->f()`). -/
def modify (key : Int) (f : SavedRequest → SavedRequest) (m : Registry) : Registry :=
  List.map (fun e => if e.key = key then { e with obj := f e.obj } else e) m

/-- Dereferencing a raw `SavedRequest*`: the object is live while the registry owns it. -/
def deref (ptr : Nat) (m : Registry) : Option SavedRequest :=
  (List.find? (fun e => e.ptr == ptr) m).map Entry.obj

/-- An update through a raw `SavedRequest*` (`request->f()`). -/
def modifyPtr (ptr : Nat) (f : SavedRequest → SavedRequest) (m : Registry) : Registry :=
  List.map (fun e => if e.ptr = ptr then { e with obj := f e.obj } else e) m

end Registry

/-- What a call of the backup resolver's `Resolve` leaves behind. -/
structure BackupResult where
  status : Int
  addresses : AddressList
  out_req : OutReq

/-- The collaborators outside the repository: the hostname validation
`net::DNSDomainFromDot` and the backup resolver. -/
structure Env where
  DNSDomainFromDot : String → Option String
  backup_Resolve : RequestInfo → RequestPriority → AddressList → CompletionCallback →
    OutReq → BackupResult
  backup_ResolveFromCache : RequestInfo → AddressList → Int × AddressList

/-- The foreign subsystem, as the bridge calls it. -/
structure Java where
  resolve : String → Int → Int
  resolveCache : String → JObjectArray

/-- A task posted to `task_runner_`: `DoResolveInJava(request, key_id)`. -/
structure WorkerTask where
  request : Nat
  key_id : Int
deriving DecidableEq, Repr

/-- A task posted to `orig_runner_`: `origOnResolved(forRequestId, error, addr_list)`. -/
structure OrigTask where
  forRequestId : Int
  error : Int
  addr_list : Option AddressList
deriving DecidableEq, Repr

/-- The resolver and what it acts on.  `_use_backup`, `j_host_resolver_uninitialized`
(the value of `j_host_resolver_.is_uninitialized()`) and `requests_` are members
of `HostResolverTenta`; `next_ptr` is the allocator; `mem` is the callers' memory
holding the output buffers; `worker_tasks` and `orig_tasks` are the pending tasks
of `task_runner_` and `orig_runner_`; `callback_runs`, `java_calls` and
`backup_calls` record, in order, every `callback.Run(status)`, every call of the
foreign `resolve` and every delegation to the backup resolver. -/
structure State where
  _use_backup : Bool
  j_host_resolver_uninitialized : Bool
  requests_ : Registry
  next_ptr : Nat
  mem : Nat → AddressList
  worker_tasks : List WorkerTask
  orig_tasks : List OrigTask
  callback_runs : List (Nat × Int)
  java_calls : List (String × Int)
  backup_calls : List RequestInfo

/-- The resolver right after its constructor: `_use_backup(false)` and an empty registry. -/
def State.constructed (j_uninitialized : Bool) (mem : Nat → AddressList) : State :=
  State.mk false j_uninitialized [] 0 mem [] [] [] [] []

/-! ## The member functions -/

/-- The invocation `callback.Run(status)`. -/
def Run (callback : CompletionCallback) (status : Int) (runs : List (Nat × Int)) :
    List (Nat × Int) :=
  match callback with
  | some c => runs ++ [(c, status)]
  | none => runs

/-- The method `SavedRequest::OnResolved(status, addr_list)`, acting on the
request, the callers' memory and the record of callback runs. -/
def SavedRequest.OnResolved (r : SavedRequest) (status : Int) (addr_list : Option AddressList)
    (mem : Nat → AddressList) (runs : List (Nat × Int)) :
    SavedRequest × (Nat → AddressList) × List (Nat × Int) :=
  if !r.was_canceled then
    let mem1 :=
      if status = OK then
        match addr_list with
        | some l => Function.update mem r.addresses_ (AddressList.CopyWithPort l r.info_.port)
        | none => mem
      else mem
    let callback := r.callback_
    let r1 := r.Cancel
    (r1, mem1, Run callback status runs)
  else (r, mem, runs)

/-- The method `HostResolverTenta::origOnResolved`. -/
def origOnResolved (s : State) (forRequestId : Int) (error : Int)
    (addr_list : Option AddressList) : State :=
  match Registry.find forRequestId s.requests_ with
  | some it =>
    let out := it.obj.OnResolved error addr_list s.mem s.callback_runs
    { s with
      requests_ := Registry.erase forRequestId
        (Registry.modify forRequestId (fun _ => out.1) s.requests_)
      mem := out.2.1
      callback_runs := out.2.2 }
  | none => s

/-- The method `HostResolverTenta::OnError`: posts the delivery to `orig_runner_`. -/
def OnError (s : State) (key_id : Int) (error : Int) : State :=
  { s with orig_tasks := s.orig_tasks ++ [OrigTask.mk key_id error none] }

/-- The method `HostResolverTenta::CancelRequest`. -/
def CancelRequest (s : State) (key_id : Int) : State :=
  match Registry.find key_id s.requests_ with
  | some it =>
    let requests1 := Registry.modify key_id SavedRequest.Cancel s.requests_
    if !it.obj.Cancel.was_sent_to_java then
      { s with requests_ := Registry.erase key_id requests1 }
    else { s with requests_ := requests1 }
  | none => s

/-- The fill loop of `ConvertIpJava2Native`: one endpoint with port 0 per
foreign byte array, pushed at the back; the bytes are reinterpreted as `uint8_t`. -/
def ConvertIpJava2Native.fill : List JByteArray → AddressList → AddressList
  | [], foundAddr => foundAddr
  | ip_bytes :: rest, foundAddr =>
    ConvertIpJava2Native.fill rest
      (foundAddr ++ [IPEndPoint.mk (ip_bytes.map (fun b => (b % 256).toNat)) 0])

/-- The method `HostResolverTenta::ConvertIpJava2Native`; `none` is `nullptr`. -/
def ConvertIpJava2Native (jIpArray : JObjectArray) : Option AddressList :=
  match jIpArray with
  | some arr => if 0 < arr.length then some (ConvertIpJava2Native.fill arr []) else none
  | none => none

/-- The method `HostResolverTenta::Resolve`; `now` is the reading of
`base::TimeTicks::Now()`.  Returns the status, the state and the `out_req` slot. -/
def Resolve (env : Env) (s : State) (info : RequestInfo) (priority : RequestPriority)
    (addresses : Nat) (callback : CompletionCallback) (out_req : OutReq) (now : Int) :
    Int × State × OutReq :=
  if s._use_backup then
    let b := env.backup_Resolve info priority (s.mem addresses) callback out_req
    (b.status,
     { s with mem := Function.update s.mem addresses b.addresses
              backup_calls := s.backup_calls ++ [info] },
     b.out_req)
  else
    match env.DNSDomainFromDot info.hostname with
    | none => (ERR_NAME_NOT_RESOLVED, s, out_req)
    | some _ =>
      let key_id := now
      let the_request := s.next_ptr
      let request := SavedRequest.create now info priority callback addresses
      let response := Request.RequestForCaller key_id
      (ERR_IO_PENDING,
       { s with requests_ := Registry.insert (Entry.mk key_id the_request request) s.requests_
                next_ptr := s.next_ptr + 1
                worker_tasks := s.worker_tasks ++ [WorkerTask.mk the_request key_id] },
       out_req.map (fun _ => some response))

/-- The method `HostResolverTenta::DoResolveInJava`; `none` is the undefined
behaviour of reading through a pointer whose object has been deleted. -/
def DoResolveInJava (java : Java) (s : State) (request : Nat) (key_id : Int) : Option State :=
  if !s.j_host_resolver_uninitialized then
    match Registry.deref request s.requests_ with
    | none => none
    | some r =>
      let jReturn := java.resolve r.info_.hostname key_id
      let s1 := { s with java_calls := s.java_calls ++ [(r.info_.hostname, key_id)]
                         requests_ := Registry.modifyPtr request SavedRequest.sent_to_java
                           s.requests_ }
      if jReturn ≠ OK then some (OnError s1 key_id jReturn) else some s1
  else some (OnError s key_id ERR_DNS_SERVER_FAILED)

/-- The method `HostResolverTenta::OnResolved`, the entry point the foreign side
calls: converts the addresses and posts the delivery to `orig_runner_`. -/
def OnResolved (s : State) (status : Int) (result : JObjectArray) (forRequestId : Int) : State :=
  let foundAddr := if status = OK then ConvertIpJava2Native result else none
  { s with orig_tasks := s.orig_tasks ++ [OrigTask.mk forRequestId status foundAddr] }

/-- The method `HostResolverTenta::ResolveFromCacheDirect`. -/
def ResolveFromCacheDirect (java : Java) (s : State) (info : RequestInfo) (addresses : Nat) :
    Int × State :=
  if !s.j_host_resolver_uninitialized then
    let jReturn := java.resolveCache info.hostname
    match ConvertIpJava2Native jReturn with
    | some foundAddr =>
      (OK, { s with mem := Function.update s.mem addresses
                      (AddressList.CopyWithPort foundAddr info.port) })
    | none => (ERR_DNS_CACHE_MISS, s)
  else (ERR_DNS_CACHE_MISS, s)

/-- The method `HostResolverTenta::DoResolveCacheInJava`: the task body; returns
the value stored in `*success`. -/
def DoResolveCacheInJava (java : Java) (s : State) (info : RequestInfo) (addresses : Nat) :
    Bool × State :=
  let r := ResolveFromCacheDirect java s info addresses
  if r.1 = OK then (true, r.2) else (false, r.2)

/-- The method `HostResolverTenta::ResolveFromCacheWithTask`: the caller blocks
until the posted task has signalled, so the task body runs before the return. -/
def ResolveFromCacheWithTask (java : Java) (s : State) (info : RequestInfo) (addresses : Nat) :
    Int × State :=
  let r := DoResolveCacheInJava java s info addresses
  if r.1 then (OK, r.2) else (ERR_DNS_CACHE_MISS, r.2)

/-- The method `HostResolverTenta::ResolveFromCache`. -/
def ResolveFromCache (env : Env) (java : Java) (s : State) (info : RequestInfo)
    (addresses : Nat) : Int × State :=
  if s._use_backup then
    let b := env.backup_ResolveFromCache info (s.mem addresses)
    (b.1, { s with mem := Function.update s.mem addresses b.2 })
  else ResolveFromCacheWithTask java s info addresses

/-! ## The task runners -/

/-- One step of a run of the resolver: a call from outside (`Resolve`,
`CancelRequest`, the foreign completion `OnResolved`), or a task runner taking
its pending task number `i` (a dispatch `DoResolveInJava` on `task_runner_`, a
delivery `origOnResolved` on `orig_runner_`). -/
inductive Step where
  | Resolve (info : RequestInfo) (priority : RequestPriority) (addresses : Nat)
      (callback : CompletionCallback) (out_req : OutReq) (now : Int)
  | CancelRequest (key_id : Int)
  | OnResolved (status : Int) (result : JObjectArray) (forRequestId : Int)
  | runWorker (i : Nat) (java : Java)
  | runOrig (i : Nat)

/-- The effect of one step; `none` is undefined behaviour.  A runner asked for a
task it does not have does nothing. -/
def step (env : Env) (s : State) : Step → Option State
  | Step.Resolve info priority addresses callback out_req now =>
    some (Resolve env s info priority addresses callback out_req now).2.1
  | Step.CancelRequest key_id => some (CancelRequest s key_id)
  | Step.OnResolved status result forRequestId => some (OnResolved s status result forRequestId)
  | Step.runWorker i java =>
    match s.worker_tasks.get? i with
    | some t =>
      DoResolveInJava java { s with worker_tasks := s.worker_tasks.eraseIdx i } t.request t.key_id
    | none => some s
  | Step.runOrig i =>
    match s.orig_tasks.get? i with
    | some t =>
      some (origOnResolved { s with orig_tasks := s.orig_tasks.eraseIdx i }
        t.forRequestId t.error t.addr_list)
    | none => some s

/-- A finite sequence of steps. -/
def run (env : Env) (s : State) : List Step → Option State
  | [] => some s
  | a :: rest =>
    match step env s a with
    | some s1 => run env s1 rest
    | none => none

/-- How many times the callback `c` has been run. -/
def invocations (c : Nat) (s : State) : Nat :=
  List.countP (fun p => p.1 == c) s.callback_runs

/-- How many registry entries hold the callback `c`. -/
def held (c : Nat) (m : Registry) : Nat :=
  List.countP (fun e => e.obj.callback_ == some c) m

/-- Whether a step is a `Resolve` call passing the callback `c`. -/
def Step.passes (c : Nat) : Step → Bool
  | Step.Resolve _ _ _ callback _ _ => callback == some c
  | _ => false

/-- How many `Resolve` calls of a sequence pass the callback `c`. -/
def passed (c : Nat) (steps : List Step) : Nat :=
  List.countP (Step.passes c) steps

/-! ## Sample collaborators -/

/-- A sample environment: only the empty hostname is invalid, and the backup
resolver answers `OK` at once and writes nothing. -/
def sampleEnv : Env where
  DNSDomainFromDot := fun h => if h = "" then none else some h
  backup_Resolve := fun _ _ a _ o => BackupResult.mk OK a o
  backup_ResolveFromCache := fun _ a => (ERR_DNS_CACHE_MISS, a)

/-- A sample foreign side: `resolve` accepts everything, the cache knows
"example.com" only. -/
def sampleJava : Java where
  resolve := fun _ _ => OK
  resolveCache := fun h =>
    if h = "example.com" then some [[93, -72, -41, 14], [10, 0, 0, 1]] else none

/-- An empty callers' memory. -/
def emptyMem : Nat → AddressList := fun _ => []

/-! ## The registry -/

namespace Registry

theorem find_cons (key : Int) (e : Entry) (m : Registry) :
    find key (e :: m) = if e.key = key then some e else find key m := by
  by_cases h : e.key = key <;> simp [find, List.find?_cons, h]

theorem erase_cons (key : Int) (e : Entry) (m : Registry) :
    erase key (e :: m) = if e.key = key then erase key m else e :: erase key m := by
  by_cases h : e.key = key <;> simp [erase, List.filter_cons, h]

theorem modify_cons (key : Int) (f : SavedRequest → SavedRequest) (e : Entry) (m : Registry) :
    modify key f (e :: m)
      = (if e.key = key then { e with obj := f e.obj } else e) :: modify key f m := rfl

theorem find_erase_self (key : Int) (m : Registry) : find key (erase key m) = none := by
  induction m with
  | nil => rfl
  | cons e m ih =>
    rw [erase_cons]
    by_cases h : e.key = key
    · rw [if_pos h]; exact ih
    · rw [if_neg h, find_cons, if_neg h]; exact ih

theorem find_erase_ne (key j : Int) (m : Registry) (h : j ≠ key) :
    find j (erase key m) = find j m := by
  induction m with
  | nil => rfl
  | cons e m ih =>
    rw [erase_cons, find_cons]
    by_cases hk : e.key = key
    · have hj : ¬ e.key = j := fun hj => h (hj.symm.trans hk)
      rw [if_pos hk, if_neg hj]; exact ih
    · rw [if_neg hk, find_cons, ih]

theorem erase_modify (key : Int) (f : SavedRequest → SavedRequest) (m : Registry) :
    erase key (modify key f m) = erase key m := by
  induction m with
  | nil => rfl
  | cons e m ih =>
    rw [modify_cons, erase_cons, erase_cons]
    by_cases hk : e.key = key
    · simp only [if_pos hk]; exact ih
    · simp only [if_neg hk]; rw [ih]

theorem find_modify_ne (key j : Int) (f : SavedRequest → SavedRequest) (m : Registry)
    (h : j ≠ key) : find j (modify key f m) = find j m := by
  induction m with
  | nil => rfl
  | cons e m ih =>
    rw [modify_cons, find_cons, find_cons]
    by_cases hk : e.key = key
    · have hj : ¬ e.key = j := fun hj => h (hj.symm.trans hk)
      simp only [if_pos hk, if_neg hj]; exact ih
    · simp only [if_neg hk]; rw [ih]

theorem find_modify_self (key : Int) (f : SavedRequest → SavedRequest) (m : Registry) :
    find key (modify key f m) = (find key m).map (fun e => { e with obj := f e.obj }) := by
  induction m with
  | nil => rfl
  | cons e m ih =>
    rw [modify_cons, find_cons, find_cons]
    by_cases hk : e.key = key
    · simp only [if_pos hk]; rfl
    · simp only [if_neg hk]; exact ih

theorem modify_modify (key : Int) (f : SavedRequest → SavedRequest) (m : Registry)
    (hf : ∀ r, f (f r) = f r) : modify key f (modify key f m) = modify key f m := by
  induction m with
  | nil => rfl
  | cons e m ih =>
    rw [modify_cons, modify_cons, ih]
    by_cases hk : e.key = key
    · simp only [if_pos hk, hf]
    · simp only [if_neg hk]

theorem find_key (key : Int) (m : Registry) (it : Entry) (h : find key m = some it) :
    it.key = key := by
  have := List.find?_some h
  simpa using this

theorem find_insert_self (e : Entry) (m : Registry) (h : find e.key m = none) :
    find e.key (insert e m) = some e := by
  unfold insert
  rw [h]
  simp only [find_cons, if_true]

theorem find_insert_ne (e : Entry) (j : Int) (m : Registry) (h : j ≠ e.key) :
    find j (insert e m) = find j m := by
  unfold insert
  cases find e.key m with
  | some it => rfl
  | none =>
    have hj : ¬ e.key = j := fun hj => h hj.symm
    simp only [find_cons, if_neg hj]

end Registry

/-! ## Resolve -/

/-- In bridge mode, with a valid hostname and a clock reading that is not yet a
key of the registry, `Resolve` returns `ERR_IO_PENDING`, binds the handle to the
clock reading, registers the new request under it with `sent_to_java_ = false`
and leaves every other key as it was. -/
theorem Resolve_bridge_fresh_key (env : Env) (s : State) (info : RequestInfo)
    (priority : RequestPriority) (addresses : Nat) (callback : CompletionCallback)
    (out_req : Option Request) (now : Int)
    (hmode : s._use_backup = false)
    (hvalid : (env.DNSDomainFromDot info.hostname).isSome = true)
    (hfresh : Registry.find now s.requests_ = none) :
    (Resolve env s info priority addresses callback (some out_req) now).1 = ERR_IO_PENDING ∧
    (Resolve env s info priority addresses callback (some out_req) now).2.2
      = some (some (Request.RequestForCaller now)) ∧
    Registry.find now
        (Resolve env s info priority addresses callback (some out_req) now).2.1.requests_
      = some (Entry.mk now s.next_ptr
          (SavedRequest.mk info priority callback addresses now false)) ∧
    ∀ j, j ≠ now →
      Registry.find j
          (Resolve env s info priority addresses callback (some out_req) now).2.1.requests_
        = Registry.find j s.requests_ := by
  obtain ⟨d, hd⟩ := Option.isSome_iff_exists.mp hvalid
  have hins := Registry.find_insert_self
    (Entry.mk now s.next_ptr (SavedRequest.mk info priority callback addresses now false))
    s.requests_ hfresh
  refine ⟨?_, ?_, ?_, ?_⟩
  · simp [Resolve, hmode, hd]
  · simp [Resolve, hmode, hd]
  · simpa [Resolve, hmode, hd, SavedRequest.create] using hins
  · intro j hj
    have := Registry.find_insert_ne
      (Entry.mk now s.next_ptr (SavedRequest.mk info priority callback addresses now false))
      j s.requests_ hj
    simpa [Resolve, hmode, hd, SavedRequest.create] using this

/-- C1, evaluated where it fails: two `Resolve` calls on a freshly constructed
resolver in bridge mode, for "a.test" and then "b.test", both observing the clock
reading 5.  The second call returns `ERR_IO_PENDING` with a handle bound to id 5,
but the registry still maps 5 to the request of the first call; the object of
the second call is gone, and the dispatch posted for it reads through a dangling
pointer. -/
theorem Resolve_same_clock_reading_drops_request :
    (Resolve sampleEnv
        (Resolve sampleEnv (State.constructed false emptyMem)
          (RequestInfo.mk "a.test" 80) 0 100 (some 1) (some none) 5).2.1
        (RequestInfo.mk "b.test" 443) 0 200 (some 2) (some none) 5).1 = ERR_IO_PENDING ∧
    (Resolve sampleEnv
        (Resolve sampleEnv (State.constructed false emptyMem)
          (RequestInfo.mk "a.test" 80) 0 100 (some 1) (some none) 5).2.1
        (RequestInfo.mk "b.test" 443) 0 200 (some 2) (some none) 5).2.2
      = some (some (Request.RequestForCaller 5)) ∧
    Registry.find 5
        (Resolve sampleEnv
          (Resolve sampleEnv (State.constructed false emptyMem)
            (RequestInfo.mk "a.test" 80) 0 100 (some 1) (some none) 5).2.1
          (RequestInfo.mk "b.test" 443) 0 200 (some 2) (some none) 5).2.1.requests_
      = some (Entry.mk 5 0 (SavedRequest.mk (RequestInfo.mk "a.test" 80) 0 (some 1) 100 5 false)) ∧
    (Resolve sampleEnv
        (Resolve sampleEnv (State.constructed false emptyMem)
          (RequestInfo.mk "a.test" 80) 0 100 (some 1) (some none) 5).2.1
        (RequestInfo.mk "b.test" 443) 0 200 (some 2) (some none) 5).2.1.worker_tasks
      = [WorkerTask.mk 0 5, WorkerTask.mk 1 5] ∧
    DoResolveInJava sampleJava
        (Resolve sampleEnv
          (Resolve sampleEnv (State.constructed false emptyMem)
            (RequestInfo.mk "a.test" 80) 0 100 (some 1) (some none) 5).2.1
          (RequestInfo.mk "b.test" 443) 0 200 (some 2) (some none) 5).2.1 1 5 = none := by
  refine ⟨?_, ?_, ?_, ?_, ?_⟩ <;>
    simp [Resolve, DoResolveInJava, sampleEnv, State.constructed, Registry.insert, Registry.find,
      Registry.deref, SavedRequest.create]

/-- A resolver switched to the backup resolver, otherwise as constructed. -/
def backupState : State :=
  { State.constructed false emptyMem with _use_backup := true }

/-- C2 as stated fails: with the mode flag on the backup resolver, `Resolve` of
the empty hostname, which the validation rejects, is handed to the backup
resolver and returns what that one returns, here `OK`. -/
theorem Resolve_invalid_hostname_backup_mode_delegates :
    sampleEnv.DNSDomainFromDot (RequestInfo.mk "" 80).hostname = none ∧
    (Resolve sampleEnv backupState (RequestInfo.mk "" 80) 0 100 (some 1) (some none) 5).1
      ≠ ERR_NAME_NOT_RESOLVED ∧
    (Resolve sampleEnv backupState (RequestInfo.mk "" 80) 0 100 (some 1)
      (some none) 5).2.1.backup_calls = [RequestInfo.mk "" 80] := by
  refine ⟨?_, ?_, ?_⟩ <;>
    simp [Resolve, sampleEnv, backupState, State.constructed, OK, ERR_NAME_NOT_RESOLVED]

/-- C2, amended: in bridge mode, for every hostname that fails the validation,
`Resolve` returns `ERR_NAME_NOT_RESOLVED` and leaves the whole state as it was
(the registry, both task queues, the record of foreign and backup calls, the
record of callback runs, the output buffers) and the `out_req` slot too. -/
theorem Resolve_invalid_hostname_bridge_mode (env : Env) (s : State) (info : RequestInfo)
    (priority : RequestPriority) (addresses : Nat) (callback : CompletionCallback)
    (out_req : OutReq) (now : Int)
    (hmode : s._use_backup = false)
    (hinvalid : env.DNSDomainFromDot info.hostname = none) :
    Resolve env s info priority addresses callback out_req now
      = (ERR_NAME_NOT_RESOLVED, s, out_req) := by
  simp [Resolve, hmode, hinvalid]

/-- Witness of `Resolve_invalid_hostname_bridge_mode`: the empty hostname on a
freshly constructed resolver. -/
theorem Resolve_invalid_hostname_bridge_mode_witness :
    Resolve sampleEnv (State.constructed false emptyMem) (RequestInfo.mk "" 80) 0 100
        (some 1) (some none) 5
      = (ERR_NAME_NOT_RESOLVED, State.constructed false emptyMem, some none) :=
  Resolve_invalid_hostname_bridge_mode sampleEnv (State.constructed false emptyMem)
    (RequestInfo.mk "" 80) 0 100 (some 1) (some none) 5 rfl (by simp [sampleEnv])

/-- C3: with the mode flag on the backup resolver, `Resolve` returns exactly the
status the backup resolver returns for the same arguments, and the registry
after the call is the registry before it. -/
theorem Resolve_backup_mode_delegates (env : Env) (s : State) (info : RequestInfo)
    (priority : RequestPriority) (addresses : Nat) (callback : CompletionCallback)
    (out_req : OutReq) (now : Int)
    (hmode : s._use_backup = true) :
    (Resolve env s info priority addresses callback out_req now).1
      = (env.backup_Resolve info priority (s.mem addresses) callback out_req).status ∧
    (Resolve env s info priority addresses callback out_req now).2.1.requests_
      = s.requests_ := by
  simp [Resolve, hmode]

/-- Witness of `Resolve_backup_mode_delegates`: "example.com" on a resolver in
backup mode. -/
theorem Resolve_backup_mode_delegates_witness :
    (Resolve sampleEnv backupState (RequestInfo.mk "example.com" 443) 0 100 (some 1)
        (some none) 5).1
      = (sampleEnv.backup_Resolve (RequestInfo.mk "example.com" 443) 0
          (backupState.mem 100) (some 1) (some none)).status ∧
    (Resolve sampleEnv backupState (RequestInfo.mk "example.com" 443) 0 100 (some 1)
        (some none) 5).2.1.requests_
      = backupState.requests_ :=
  Resolve_backup_mode_delegates sampleEnv backupState (RequestInfo.mk "example.com" 443)
    0 100 (some 1) (some none) 5 rfl

/-! ## Delivery and cancellation -/

/-- A registry of two requests: id 1 for "a.test", dispatched, and id 2 for
"b.test", not dispatched. -/
def sampleRegistry : Registry :=
  [Entry.mk 1 0 (SavedRequest.mk (RequestInfo.mk "a.test" 80) 0 (some 7) 100 1 true),
   Entry.mk 2 1 (SavedRequest.mk (RequestInfo.mk "b.test" 443) 0 (some 8) 200 2 false)]

/-- A resolver in bridge mode holding `sampleRegistry`. -/
def sampleState : State :=
  { State.constructed false emptyMem with requests_ := sampleRegistry, next_ptr := 2 }

/-- C5: when the registry holds a request with a callback `c` under `id`,
delivering `(status, addr_list)` for `id` runs `c` exactly once, with `status`;
removes the entry under `id` and leaves every other key as it was; writes the
delivered addresses, in order, each with the request's port, into the request's
output buffer (and nothing else) when `status` is `OK` and a list is present,
and leaves the callers' memory untouched in every other case. -/
theorem origOnResolved_delivers (s : State) (id : Int) (it : Entry) (c : Nat) (status : Int)
    (addr_list : Option AddressList)
    (hfind : Registry.find id s.requests_ = some it)
    (hcallback : it.obj.callback_ = some c) :
    (origOnResolved s id status addr_list).callback_runs = s.callback_runs ++ [(c, status)] ∧
    Registry.find id (origOnResolved s id status addr_list).requests_ = none ∧
    (∀ j, j ≠ id →
      Registry.find j (origOnResolved s id status addr_list).requests_
        = Registry.find j s.requests_) ∧
    (∀ l, status = OK → addr_list = some l →
      (origOnResolved s id status addr_list).mem
        = Function.update s.mem it.obj.addresses_
            (l.map (fun e => IPEndPoint.mk e.address it.obj.info_.port))) ∧
    (status ≠ OK ∨ addr_list = none → (origOnResolved s id status addr_list).mem = s.mem) := by
  unfold origOnResolved
  rw [hfind]
  simp only [Registry.erase_modify]
  refine ⟨?_, Registry.find_erase_self id _, fun j hj => Registry.find_erase_ne id j _ hj, ?_, ?_⟩
  · simp [SavedRequest.OnResolved, SavedRequest.was_canceled, hcallback, Run]
  · intro l hs hl
    simp [SavedRequest.OnResolved, SavedRequest.was_canceled, hcallback, hs, hl,
      AddressList.CopyWithPort]
  · intro h
    rcases h with h | h
    · cases addr_list <;>
        simp [SavedRequest.OnResolved, SavedRequest.was_canceled, hcallback, h]
    · simp [SavedRequest.OnResolved, SavedRequest.was_canceled, hcallback, h]

/-- Witness of `origOnResolved_delivers`: `OK` with two addresses for id 2 of
`sampleState`. -/
theorem origOnResolved_delivers_witness :
    (origOnResolved sampleState 2 OK
        (some [IPEndPoint.mk [10, 0, 0, 1] 0, IPEndPoint.mk [10, 0, 0, 2] 0])).callback_runs
      = sampleState.callback_runs ++ [(8, OK)] ∧
    Registry.find 2 (origOnResolved sampleState 2 OK
        (some [IPEndPoint.mk [10, 0, 0, 1] 0, IPEndPoint.mk [10, 0, 0, 2] 0])).requests_ = none ∧
    (∀ j, j ≠ 2 →
      Registry.find j (origOnResolved sampleState 2 OK
          (some [IPEndPoint.mk [10, 0, 0, 1] 0, IPEndPoint.mk [10, 0, 0, 2] 0])).requests_
        = Registry.find j sampleState.requests_) ∧
    (∀ l, OK = OK →
      some [IPEndPoint.mk [10, 0, 0, 1] 0, IPEndPoint.mk [10, 0, 0, 2] 0] = some l →
      (origOnResolved sampleState 2 OK
          (some [IPEndPoint.mk [10, 0, 0, 1] 0, IPEndPoint.mk [10, 0, 0, 2] 0])).mem
        = Function.update sampleState.mem 200
            (l.map (fun e => IPEndPoint.mk e.address 443))) ∧
    (OK ≠ OK ∨ some [IPEndPoint.mk [10, 0, 0, 1] 0, IPEndPoint.mk [10, 0, 0, 2] 0] = none →
      (origOnResolved sampleState 2 OK
          (some [IPEndPoint.mk [10, 0, 0, 1] 0, IPEndPoint.mk [10, 0, 0, 2] 0])).mem
        = sampleState.mem) :=
  origOnResolved_delivers sampleState 2
    (Entry.mk 2 1 (SavedRequest.mk (RequestInfo.mk "b.test" 443) 0 (some 8) 200 2 false))
    8 OK (some [IPEndPoint.mk [10, 0, 0, 1] 0, IPEndPoint.mk [10, 0, 0, 2] 0])
    (by decide) rfl

/-- C6: for an id that is not a key of the registry, a delivery, with any status
and with or without addresses, leaves the whole state as it was (registry,
record of callback runs, callers' memory); so does the error path, where
`OnError` only posts the delivery and the posted delivery finds nothing. -/
theorem origOnResolved_unknown_id (s : State) (id : Int) (status : Int)
    (addr_list : Option AddressList)
    (habsent : Registry.find id s.requests_ = none) :
    origOnResolved s id status addr_list = s ∧
    (OnError s id status).requests_ = s.requests_ ∧
    (OnError s id status).callback_runs = s.callback_runs ∧
    (OnError s id status).mem = s.mem ∧
    (OnError s id status).orig_tasks = s.orig_tasks ++ [OrigTask.mk id status none] ∧
    origOnResolved (OnError s id status) id status none = OnError s id status := by
  have h1 : Registry.find id (OnError s id status).requests_ = none := habsent
  refine ⟨?_, rfl, rfl, rfl, rfl, ?_⟩
  · simp [origOnResolved, habsent]
  · simp [origOnResolved, h1]

/-- Witness of `origOnResolved_unknown_id`: id 9 on `sampleState`. -/
theorem origOnResolved_unknown_id_witness :
    origOnResolved sampleState 9 ERR_DNS_SERVER_FAILED none = sampleState ∧
    (OnError sampleState 9 ERR_DNS_SERVER_FAILED).requests_ = sampleState.requests_ ∧
    (OnError sampleState 9 ERR_DNS_SERVER_FAILED).callback_runs = sampleState.callback_runs ∧
    (OnError sampleState 9 ERR_DNS_SERVER_FAILED).mem = sampleState.mem ∧
    (OnError sampleState 9 ERR_DNS_SERVER_FAILED).orig_tasks
      = sampleState.orig_tasks ++ [OrigTask.mk 9 ERR_DNS_SERVER_FAILED none] ∧
    origOnResolved (OnError sampleState 9 ERR_DNS_SERVER_FAILED) 9 ERR_DNS_SERVER_FAILED none
      = OnError sampleState 9 ERR_DNS_SERVER_FAILED :=
  origOnResolved_unknown_id sampleState 9 ERR_DNS_SERVER_FAILED none (by decide)

/-- C7: `CancelRequest(id)` runs no callback and writes no output buffer.  If
`id` is absent the state is unchanged; if the request under `id` was never
dispatched the entry is removed; if it was dispatched the entry stays, with its
callback cleared and everything else (hostname, port, output buffer, dispatched
flag, address of the object) as it was.  Every other key is as it was. -/
theorem CancelRequest_effect (s : State) (id : Int) :
    (CancelRequest s id).callback_runs = s.callback_runs ∧
    (CancelRequest s id).mem = s.mem ∧
    (Registry.find id s.requests_ = none → CancelRequest s id = s) ∧
    (∀ it, Registry.find id s.requests_ = some it → it.obj.sent_to_java_ = false →
      Registry.find id (CancelRequest s id).requests_ = none) ∧
    (∀ it, Registry.find id s.requests_ = some it → it.obj.sent_to_java_ = true →
      Registry.find id (CancelRequest s id).requests_
        = some { it with obj := { it.obj with callback_ := none } }) ∧
    (∀ j, j ≠ id →
      Registry.find j (CancelRequest s id).requests_ = Registry.find j s.requests_) := by
  unfold CancelRequest
  cases hfind : Registry.find id s.requests_ with
  | none => simp
  | some it =>
    cases hsent : it.obj.sent_to_java_ with
    | false =>
      simp only [SavedRequest.Cancel, SavedRequest.was_sent_to_java, hsent, Registry.erase_modify]
      refine ⟨rfl, rfl, fun h => by simp at h, fun _ _ _ => Registry.find_erase_self id _,
        ?_, fun j hj => Registry.find_erase_ne id j _ hj⟩
      intro it1 h1 h2
      have : it = it1 := by simpa using h1
      subst this
      rw [hsent] at h2
      exact absurd h2 (by decide)
    | true =>
      simp only [SavedRequest.Cancel, SavedRequest.was_sent_to_java, hsent]
      refine ⟨rfl, rfl, fun h => by simp at h, ?_, ?_,
        fun j hj => Registry.find_modify_ne id j _ _ hj⟩
      · intro it1 h1 h2
        have : it = it1 := by simpa using h1
        subst this
        rw [hsent] at h2
        exact absurd h2 (by decide)
      intro it1 h1 _
      have : it = it1 := by simpa using h1
      subst this
      have := Registry.find_modify_self id SavedRequest.Cancel s.requests_
      rw [hfind] at this
      simpa [SavedRequest.Cancel] using this

/-- C8: for a request in the registry that has been dispatched, `CancelRequest`
followed by a delivery with any status and addresses runs no callback and writes
no output buffer; the registry still holds `id` after the `CancelRequest` and
no longer holds it after the delivery. -/
theorem CancelRequest_then_delivery_suppressed (s : State) (id : Int) (it : Entry)
    (status : Int) (addr_list : Option AddressList)
    (hfind : Registry.find id s.requests_ = some it)
    (hsent : it.obj.sent_to_java_ = true) :
    (Registry.find id (CancelRequest s id).requests_).isSome = true ∧
    (CancelRequest s id).callback_runs = s.callback_runs ∧
    Registry.find id (origOnResolved (CancelRequest s id) id status addr_list).requests_ = none ∧
    (origOnResolved (CancelRequest s id) id status addr_list).callback_runs = s.callback_runs ∧
    (origOnResolved (CancelRequest s id) id status addr_list).mem = s.mem := by
  have hc : CancelRequest s id
      = { s with requests_ := Registry.modify id SavedRequest.Cancel s.requests_ } := by
    simp [CancelRequest, hfind, SavedRequest.Cancel, SavedRequest.was_sent_to_java, hsent]
  have hf : Registry.find id (Registry.modify id SavedRequest.Cancel s.requests_)
      = some { it with obj := it.obj.Cancel } := by
    rw [Registry.find_modify_self, hfind]; rfl
  rw [hc]
  refine ⟨by simp [hf], rfl, ?_, ?_, ?_⟩ <;>
    simp [origOnResolved, hf, SavedRequest.OnResolved, SavedRequest.was_canceled,
      SavedRequest.Cancel, Registry.erase_modify, Registry.find_erase_self]

/-- Witness of `CancelRequest_then_delivery_suppressed`: id 1 of `sampleState`,
dispatched, with a late `OK` delivery. -/
theorem CancelRequest_then_delivery_suppressed_witness :
    (Registry.find 1 (CancelRequest sampleState 1).requests_).isSome = true ∧
    (CancelRequest sampleState 1).callback_runs = sampleState.callback_runs ∧
    Registry.find 1 (origOnResolved (CancelRequest sampleState 1) 1 OK
      (some [IPEndPoint.mk [10, 0, 0, 1] 0])).requests_ = none ∧
    (origOnResolved (CancelRequest sampleState 1) 1 OK
      (some [IPEndPoint.mk [10, 0, 0, 1] 0])).callback_runs = sampleState.callback_runs ∧
    (origOnResolved (CancelRequest sampleState 1) 1 OK
      (some [IPEndPoint.mk [10, 0, 0, 1] 0])).mem = sampleState.mem :=
  CancelRequest_then_delivery_suppressed sampleState 1
    (Entry.mk 1 0 (SavedRequest.mk (RequestInfo.mk "a.test" 80) 0 (some 7) 100 1 true))
    OK (some [IPEndPoint.mk [10, 0, 0, 1] 0]) (by decide) rfl

/-- C9: `CancelRequest` is idempotent: for every state and every id, the state
after two `CancelRequest(id)` is the state after one, and the second call runs
no callback. -/
theorem CancelRequest_idempotent (s : State) (id : Int) :
    CancelRequest (CancelRequest s id) id = CancelRequest s id ∧
    (CancelRequest (CancelRequest s id) id).callback_runs
      = (CancelRequest s id).callback_runs := by
  have key : CancelRequest (CancelRequest s id) id = CancelRequest s id := by
    cases hfind : Registry.find id s.requests_ with
    | none =>
      have h1 : CancelRequest s id = s := by simp [CancelRequest, hfind]
      rw [h1, h1]
    | some it =>
      cases hsent : it.obj.sent_to_java_ with
      | false =>
        have h1 : CancelRequest s id
            = { s with requests_ := Registry.erase id s.requests_ } := by
          simp [CancelRequest, hfind, SavedRequest.Cancel, SavedRequest.was_sent_to_java, hsent,
            Registry.erase_modify]
        rw [h1]
        simp [CancelRequest, Registry.find_erase_self]
      | true =>
        have h1 : CancelRequest s id
            = { s with requests_ := Registry.modify id SavedRequest.Cancel s.requests_ } := by
          simp [CancelRequest, hfind, SavedRequest.Cancel, SavedRequest.was_sent_to_java, hsent]
        have hf : Registry.find id (Registry.modify id SavedRequest.Cancel s.requests_)
            = some { it with obj := it.obj.Cancel } := by
          rw [Registry.find_modify_self, hfind]; rfl
        rw [h1]
        simp [CancelRequest, hf, SavedRequest.Cancel, SavedRequest.was_sent_to_java, hsent]
        exact Registry.modify_modify id _ s.requests_ (fun _ => rfl)
  exact ⟨key, by rw [key]⟩

/-! ## The cache lookup -/

/-- The endpoint `ConvertIpJava2Native` builds from one foreign byte array,
carrying the port `port`. -/
def endpointOf (port : Nat) (ip_bytes : JByteArray) : IPEndPoint :=
  IPEndPoint.mk (ip_bytes.map (fun b => (b % 256).toNat)) port

theorem ConvertIpJava2Native.fill_eq (arr : List JByteArray) (foundAddr : AddressList) :
    ConvertIpJava2Native.fill arr foundAddr = foundAddr ++ arr.map (endpointOf 0) := by
  induction arr generalizing foundAddr with
  | nil => simp [ConvertIpJava2Native.fill]
  | cons b rest ih => simp [ConvertIpJava2Native.fill, ih, endpointOf]

theorem ConvertIpJava2Native_nonempty (arr : List JByteArray) (h : arr ≠ []) :
    ConvertIpJava2Native (some arr) = some (arr.map (endpointOf 0)) := by
  have hlen : 0 < arr.length := List.length_pos.mpr h
  simp [ConvertIpJava2Native, hlen, ConvertIpJava2Native.fill_eq]

/-- C10: in bridge mode with an initialised foreign handle, when the foreign
cache query for the hostname returns a non-empty array `raw`, `ResolveFromCache`
returns `OK` and the output buffer holds the addresses of `raw`, one endpoint per
entry in the same order, each carrying the port of the request. -/
theorem ResolveFromCache_hit (env : Env) (java : Java) (s : State) (info : RequestInfo)
    (addresses : Nat) (raw : List JByteArray)
    (hmode : s._use_backup = false)
    (hinit : s.j_host_resolver_uninitialized = false)
    (hquery : java.resolveCache info.hostname = some raw)
    (hne : raw ≠ []) :
    (ResolveFromCache env java s info addresses).1 = OK ∧
    (ResolveFromCache env java s info addresses).2.mem addresses
      = raw.map (endpointOf info.port) ∧
    ((ResolveFromCache env java s info addresses).2.mem addresses).length = raw.length ∧
    ∀ e ∈ (ResolveFromCache env java s info addresses).2.mem addresses, e.port = info.port := by
  have hconv := ConvertIpJava2Native_nonempty raw hne
  have hdirect : ResolveFromCacheDirect java s info addresses
      = (OK, { s with
          mem := Function.update s.mem addresses
            (AddressList.CopyWithPort (raw.map (endpointOf 0)) info.port) }) := by
    simp [ResolveFromCacheDirect, hinit, hquery, hconv]
  have hall : ResolveFromCache env java s info addresses
      = (OK, { s with
          mem := Function.update s.mem addresses
            (AddressList.CopyWithPort (raw.map (endpointOf 0)) info.port) }) := by
    simp [ResolveFromCache, hmode, ResolveFromCacheWithTask, DoResolveCacheInJava, hdirect]
  have hbuf : AddressList.CopyWithPort (raw.map (endpointOf 0)) info.port
      = raw.map (endpointOf info.port) := by
    simp [AddressList.CopyWithPort, endpointOf]
  rw [hall]
  simp only [Function.update_same, hbuf]
  refine ⟨trivial, trivial, by simp, ?_⟩
  intro e he
  obtain ⟨b, _, rfl⟩ := List.mem_map.mp he
  rfl

/-- Witness of `ResolveFromCache_hit`: "example.com" on port 443, for which the
sample foreign cache holds two addresses. -/
theorem ResolveFromCache_hit_witness :
    (ResolveFromCache sampleEnv sampleJava (State.constructed false emptyMem)
        (RequestInfo.mk "example.com" 443) 100).1 = OK ∧
    (ResolveFromCache sampleEnv sampleJava (State.constructed false emptyMem)
        (RequestInfo.mk "example.com" 443) 100).2.mem 100
      = [[93, -72, -41, 14], [10, 0, 0, 1]].map (endpointOf (RequestInfo.mk "example.com" 443).port) ∧
    ((ResolveFromCache sampleEnv sampleJava (State.constructed false emptyMem)
        (RequestInfo.mk "example.com" 443) 100).2.mem 100).length
      = [[93, -72, -41, 14], [10, 0, 0, 1]].length ∧
    ∀ e ∈ (ResolveFromCache sampleEnv sampleJava (State.constructed false emptyMem)
        (RequestInfo.mk "example.com" 443) 100).2.mem 100,
      e.port = (RequestInfo.mk "example.com" 443).port :=
  ResolveFromCache_hit sampleEnv sampleJava (State.constructed false emptyMem)
    (RequestInfo.mk "example.com" 443) 100 [[93, -72, -41, 14], [10, 0, 0, 1]]
    rfl rfl (by simp [sampleJava]) (by simp)

/-! ## Runs: a callback is run at most once -/

theorem held_cons (c : Nat) (e : Entry) (m : Registry) :
    held c (e :: m) = held c m + (if e.obj.callback_ = some c then 1 else 0) := by
  by_cases h : e.obj.callback_ = some c <;> simp [held, List.countP_cons, h]

theorem held_erase_le (c : Nat) (key : Int) (m : Registry) :
    held c (Registry.erase key m) ≤ held c m :=
  List.Sublist.countP_le _ (List.filter_sublist m)

theorem held_modify_Cancel_le (c : Nat) (key : Int) (m : Registry) :
    held c (Registry.modify key SavedRequest.Cancel m) ≤ held c m := by
  induction m with
  | nil => exact Nat.le_refl _
  | cons e m ih =>
    rw [Registry.modify_cons, held_cons, held_cons]
    by_cases hk : e.key = key
    · simp only [if_pos hk, SavedRequest.Cancel]
      have : (if (none : Option Nat) = some c then 1 else 0) = 0 := by simp
      rw [this]
      omega
    · simp only [if_neg hk]
      omega

theorem held_modifyPtr_sent_to_java (c : Nat) (ptr : Nat) (m : Registry) :
    held c (Registry.modifyPtr ptr SavedRequest.sent_to_java m) = held c m := by
  induction m with
  | nil => rfl
  | cons e m ih =>
    have hcons : Registry.modifyPtr ptr SavedRequest.sent_to_java (e :: m)
        = (if e.ptr = ptr then { e with obj := e.obj.sent_to_java } else e)
            :: Registry.modifyPtr ptr SavedRequest.sent_to_java m := rfl
    rw [hcons, held_cons, held_cons, ih]
    by_cases hp : e.ptr = ptr
    · simp only [if_pos hp, SavedRequest.sent_to_java]
    · simp only [if_neg hp]

theorem held_insert_le (c : Nat) (e : Entry) (m : Registry) :
    held c (Registry.insert e m) ≤ held c m + (if e.obj.callback_ = some c then 1 else 0) := by
  unfold Registry.insert
  cases Registry.find e.key m with
  | some it => exact Nat.le_add_right _ _
  | none => exact Nat.le_of_eq (held_cons c e m)

theorem held_erase_found (c : Nat) (key : Int) (m : Registry) (it : Entry)
    (hfind : Registry.find key m = some it) (hcallback : it.obj.callback_ = some c) :
    held c (Registry.erase key m) + 1 ≤ held c m := by
  induction m with
  | nil => simp [Registry.find] at hfind
  | cons e m ih =>
    rw [Registry.find_cons] at hfind
    rw [Registry.erase_cons, held_cons]
    by_cases hk : e.key = key
    · rw [if_pos hk] at hfind
      have he : e = it := by simpa using hfind
      subst he
      rw [if_pos hk, if_pos hcallback]
      have := held_erase_le c key m
      omega
    · rw [if_neg hk] at hfind
      rw [if_neg hk, held_cons]
      have := ih hfind
      omega

theorem countP_runs_append (c : Nat) (runs : List (Nat × Int)) (c1 : Nat) (status : Int) :
    List.countP (fun p => p.1 == c) (runs ++ [(c1, status)])
      = List.countP (fun p => p.1 == c) runs + (if c1 = c then 1 else 0) := by
  by_cases h : c1 = c <;> simp [List.countP_append, h]

/-- A delivery moves at most one unit from "held by the registry" to "run". -/
theorem origOnResolved_potential (c : Nat) (s : State) (id : Int) (status : Int)
    (addr_list : Option AddressList) :
    invocations c (origOnResolved s id status addr_list)
        + held c (origOnResolved s id status addr_list).requests_
      ≤ invocations c s + held c s.requests_ := by
  unfold origOnResolved
  cases hfind : Registry.find id s.requests_ with
  | none => exact Nat.le_refl _
  | some it =>
    simp only [Registry.erase_modify]
    cases hcb : it.obj.callback_ with
    | none =>
      have := held_erase_le c id s.requests_
      simpa [invocations, SavedRequest.OnResolved, SavedRequest.was_canceled, hcb] using this
    | some c1 =>
      have hruns : (it.obj.OnResolved status addr_list s.mem s.callback_runs).2.2
          = s.callback_runs ++ [(c1, status)] := by
        simp [SavedRequest.OnResolved, SavedRequest.was_canceled, hcb, Run]
      simp only [invocations, hruns]
      rw [countP_runs_append]
      by_cases h : c1 = c
      · subst h
        have := held_erase_found c1 id s.requests_ it hfind hcb
        simp only [if_true]
        omega
      · have := held_erase_le c id s.requests_
        simp only [if_neg h]
        omega

theorem CancelRequest_potential (c : Nat) (s : State) (key_id : Int) :
    invocations c (CancelRequest s key_id) = invocations c s ∧
    held c (CancelRequest s key_id).requests_ ≤ held c s.requests_ := by
  unfold CancelRequest
  cases hfind : Registry.find key_id s.requests_ with
  | none => exact ⟨rfl, Nat.le_refl _⟩
  | some it =>
    by_cases hsent : it.obj.Cancel.was_sent_to_java = true
    · simp only [hsent, Bool.not_true, Bool.false_eq_true, if_false]
      exact ⟨rfl, held_modify_Cancel_le c key_id s.requests_⟩
    · simp only [hsent, Bool.not_false, if_true, Registry.erase_modify]
      exact ⟨rfl, held_erase_le c key_id s.requests_⟩

theorem Resolve_potential (c : Nat) (env : Env) (s : State) (info : RequestInfo)
    (priority : RequestPriority) (addresses : Nat) (callback : CompletionCallback)
    (out_req : OutReq) (now : Int) :
    invocations c (Resolve env s info priority addresses callback out_req now).2.1
      = invocations c s ∧
    held c (Resolve env s info priority addresses callback out_req now).2.1.requests_
      ≤ held c s.requests_ + (if callback = some c then 1 else 0) := by
  unfold Resolve
  cases hmode : s._use_backup with
  | true => exact ⟨rfl, Nat.le_add_right _ _⟩
  | false =>
    cases hd : env.DNSDomainFromDot info.hostname with
    | none => exact ⟨rfl, Nat.le_add_right _ _⟩
    | some d =>
      refine ⟨rfl, ?_⟩
      exact held_insert_le c
        (Entry.mk now s.next_ptr (SavedRequest.create now info priority callback addresses))
        s.requests_

theorem DoResolveInJava_potential (c : Nat) (java : Java) (s s1 : State) (request : Nat)
    (key_id : Int) (h : DoResolveInJava java s request key_id = some s1) :
    invocations c s1 = invocations c s ∧ held c s1.requests_ = held c s.requests_ := by
  unfold DoResolveInJava at h
  cases hinit : s.j_host_resolver_uninitialized with
  | true =>
    simp only [hinit, Bool.not_true, Bool.false_eq_true, if_false, Option.some.injEq] at h
    subst h
    exact ⟨rfl, rfl⟩
  | false =>
    simp only [hinit, Bool.not_false, if_true] at h
    cases hderef : Registry.deref request s.requests_ with
    | none => simp [hderef] at h
    | some r =>
      simp only [hderef] at h
      by_cases hj : java.resolve r.info_.hostname key_id = OK
      · simp only [hj, ne_eq, not_true_eq_false, if_false, Option.some.injEq] at h
        subst h
        exact ⟨rfl, held_modifyPtr_sent_to_java c request s.requests_⟩
      · simp only [ne_eq, hj, not_false_eq_true, if_true, Option.some.injEq] at h
        subst h
        exact ⟨rfl, held_modifyPtr_sent_to_java c request s.requests_⟩

/-- No step raises the number of runs of `c` plus the number of registry entries
holding `c`, except a `Resolve` call passing `c`, which raises it by at most one. -/
theorem step_potential (c : Nat) (env : Env) (s s1 : State) (a : Step)
    (h : step env s a = some s1) :
    invocations c s1 + held c s1.requests_
      ≤ invocations c s + held c s.requests_ + (if a.passes c = true then 1 else 0) := by
  cases a with
  | Resolve info priority addresses callback out_req now =>
    simp only [step, Option.some.injEq] at h
    subst h
    have hp := Resolve_potential c env s info priority addresses callback out_req now
    by_cases hc : callback = some c
    · have hb : (Step.Resolve info priority addresses callback out_req now).passes c = true := by
        simp [Step.passes, hc]
      rw [if_pos hb]
      rw [if_pos hc] at hp
      omega
    · have hb : ¬ (Step.Resolve info priority addresses callback out_req now).passes c = true := by
        simp [Step.passes, hc]
      rw [if_neg hb]
      rw [if_neg hc] at hp
      omega
  | CancelRequest key_id =>
    simp only [step, Option.some.injEq] at h
    subst h
    have hp := CancelRequest_potential c s key_id
    omega
  | OnResolved status result forRequestId =>
    simp only [step, Option.some.injEq] at h
    subst h
    exact Nat.le_add_right _ _
  | runWorker i java =>
    simp only [step] at h
    cases ht : s.worker_tasks.get? i with
    | none =>
      simp only [ht, Option.some.injEq] at h
      subst h
      exact Nat.le_add_right _ _
    | some t =>
      simp only [ht] at h
      have hp := DoResolveInJava_potential c java _ s1 t.request t.key_id h
      have h1 : invocations c s1 = invocations c s := hp.1
      have h2 : held c s1.requests_ = held c s.requests_ := hp.2
      omega
  | runOrig i =>
    simp only [step] at h
    cases ht : s.orig_tasks.get? i with
    | none =>
      simp only [ht, Option.some.injEq] at h
      subst h
      exact Nat.le_add_right _ _
    | some t =>
      simp only [ht, Option.some.injEq] at h
      subst h
      have hp := origOnResolved_potential c
        { s with orig_tasks := s.orig_tasks.eraseIdx i } t.forRequestId t.error t.addr_list
      have h1 : invocations c { s with orig_tasks := s.orig_tasks.eraseIdx i }
          = invocations c s := rfl
      exact Nat.le_trans hp (Nat.le_add_right _ _)

theorem run_potential (c : Nat) (env : Env) (steps : List Step) (s s1 : State)
    (h : run env s steps = some s1) :
    invocations c s1 + held c s1.requests_
      ≤ invocations c s + held c s.requests_ + passed c steps := by
  induction steps generalizing s with
  | nil =>
    simp only [run, Option.some.injEq] at h
    subst h
    exact Nat.le_refl _
  | cons a rest ih =>
    simp only [run] at h
    cases hstep : step env s a with
    | none => simp [hstep] at h
    | some s2 =>
      simp only [hstep] at h
      have h1 := step_potential c env s s2 a hstep
      have h2 := ih s2 h
      have h3 : passed c (a :: rest) = passed c rest + (if a.passes c = true then 1 else 0) := by
        by_cases hp : a.passes c = true <;> simp [passed, List.countP_cons, hp]
      omega

theorem run_append (env : Env) (xs ys : List Step) (s : State) :
    run env s (xs ++ ys) = (run env s xs).bind (fun t => run env t ys) := by
  induction xs generalizing s with
  | nil => rfl
  | cons a rest ih =>
    simp only [List.cons_append, run]
    cases step env s a with
    | none => rfl
    | some s2 => exact ih s2

theorem passed_append (c : Nat) (xs ys : List Step) :
    passed c (xs ++ ys) = passed c xs + passed c ys := by
  simp [passed, List.countP_append]

theorem CancelRequest_not_dispatched (s : State) (key_id : Int) (it : Entry)
    (hfind : Registry.find key_id s.requests_ = some it)
    (hsent : it.obj.sent_to_java_ = false) :
    CancelRequest s key_id = { s with requests_ := Registry.erase key_id s.requests_ } := by
  simp [CancelRequest, hfind, SavedRequest.Cancel, SavedRequest.was_sent_to_java, hsent,
    Registry.erase_modify]

/-- Runs with defined behaviour: take any finite sequence of steps (`Resolve` calls,
`CancelRequest` calls, foreign completions, dispatches and deliveries run by the
task runners)
on a freshly constructed resolver, which is in bridge mode, and a callback `c`
passed to at most one `Resolve` call of the sequence.  If the sequence runs
without undefined behaviour, `c` has been run at most once at its end; and if
some `CancelRequest` of the sequence found the request holding `c` in the
registry, not yet dispatched, `c` has not been run at all. -/
theorem callback_run_at_most_once (env : Env) (j_uninitialized : Bool)
    (mem : Nat → AddressList) (steps : List Step) (s' : State) (c : Nat)
    (hrun : run env (State.constructed j_uninitialized mem) steps = some s')
    (hone : passed c steps ≤ 1) :
    invocations c s' ≤ 1 ∧
    ∀ (pre post : List Step) (key_id : Int) (s1 : State) (it : Entry),
      steps = pre ++ Step.CancelRequest key_id :: post →
      run env (State.constructed j_uninitialized mem) pre = some s1 →
      Registry.find key_id s1.requests_ = some it →
      it.obj.callback_ = some c →
      it.obj.sent_to_java_ = false →
      invocations c s' = 0 := by
  have h0 : invocations c (State.constructed j_uninitialized mem) = 0 := rfl
  have h0' : held c (State.constructed j_uninitialized mem).requests_ = 0 := rfl
  refine ⟨?_, ?_⟩
  · have := run_potential c env steps _ s' hrun
    omega
  · intro pre post key_id s1 it hsteps hpre hfind hcallback hsent
    subst hsteps
    rw [run_append, hpre] at hrun
    simp only [Option.bind, run, step] at hrun
    have hp1 := run_potential c env pre _ s1 hpre
    have hp2 := run_potential c env post _ s' hrun
    have hsplit := passed_append c pre (Step.CancelRequest key_id :: post)
    have hcons : passed c (Step.CancelRequest key_id :: post) = passed c post := by
      simp [passed, List.countP_cons, Step.passes]
    have hheld := held_erase_found c key_id s1.requests_ it hfind hcallback
    rw [CancelRequest_not_dispatched s1 key_id it hfind hsent] at hp2
    have hinv : invocations c { s1 with requests_ := Registry.erase key_id s1.requests_ }
        = invocations c s1 := rfl
    simp only [hinv] at hp2
    omega

/-- A sample run: two `Resolve` calls, at clock readings 5 and 6; the second
request is cancelled before its dispatch; the first is dispatched, then
completed by the foreign side with one address, and delivered. -/
def sampleRun : List Step :=
  [Step.Resolve (RequestInfo.mk "a.test" 80) 0 100 (some 1) (some none) 5,
   Step.Resolve (RequestInfo.mk "b.test" 443) 0 200 (some 2) (some none) 6,
   Step.CancelRequest 6,
   Step.runWorker 0 sampleJava,
   Step.OnResolved OK (some [[10, 0, 0, 1]]) 5,
   Step.runOrig 0]

/-- The state `sampleRun` ends in. -/
def sampleRunEnd : State where
  _use_backup := false
  j_host_resolver_uninitialized := false
  requests_ := []
  next_ptr := 2
  mem := Function.update emptyMem 100 [IPEndPoint.mk [10, 0, 0, 1] 80]
  worker_tasks := [WorkerTask.mk 1 6]
  orig_tasks := []
  callback_runs := [(1, OK)]
  java_calls := [("a.test", 5)]
  backup_calls := []

/-- In `sampleRun` the callback 1 is run once and the callback 2, whose request
the `CancelRequest` step finds in the registry before its dispatch, is not run. -/
theorem sampleRun_counts :
    run sampleEnv (State.constructed false emptyMem) (sampleRun.take 2)
      = some { State.constructed false emptyMem with
          requests_ :=
            [Entry.mk 6 1 (SavedRequest.mk (RequestInfo.mk "b.test" 443) 0 (some 2) 200 6 false),
             Entry.mk 5 0 (SavedRequest.mk (RequestInfo.mk "a.test" 80) 0 (some 1) 100 5 false)]
          next_ptr := 2
          worker_tasks := [WorkerTask.mk 0 5, WorkerTask.mk 1 6] } ∧
    sampleRun = sampleRun.take 2 ++ Step.CancelRequest 6 :: sampleRun.drop 3 ∧
    invocations 1 sampleRunEnd = 1 ∧
    invocations 2 sampleRunEnd = 0 :=
  ⟨rfl, rfl, by decide, by decide⟩

/-- Witness of `callback_run_at_most_once`: `sampleRun` and the callback 1. -/
theorem callback_run_at_most_once_witness :
    invocations 1 sampleRunEnd ≤ 1 ∧
    ∀ (pre post : List Step) (key_id : Int) (s1 : State) (it : Entry),
      sampleRun = pre ++ Step.CancelRequest key_id :: post →
      run sampleEnv (State.constructed false emptyMem) pre = some s1 →
      Registry.find key_id s1.requests_ = some it →
      it.obj.callback_ = some 1 →
      it.obj.sent_to_java_ = false →
      invocations 1 sampleRunEnd = 0 :=
  callback_run_at_most_once sampleEnv false emptyMem sampleRun sampleRunEnd 1 rfl (by decide)

/-! ## The cache lookup: a miss -/

/-- C11: in bridge mode, when the foreign handle is uninitialised, or the foreign
cache query for the hostname returns no array, or an array of length zero,
`ResolveFromCache` returns `ERR_DNS_CACHE_MISS` and leaves the output buffer, and
the rest of the state, as it was. -/
theorem ResolveFromCache_miss (env : Env) (java : Java) (s : State) (info : RequestInfo)
    (addresses : Nat)
    (hmode : s._use_backup = false)
    (hmiss : s.j_host_resolver_uninitialized = true ∨
      java.resolveCache info.hostname = none ∨
      java.resolveCache info.hostname = some []) :
    (ResolveFromCache env java s info addresses).1 = ERR_DNS_CACHE_MISS ∧
    (ResolveFromCache env java s info addresses).2.mem addresses = s.mem addresses ∧
    (ResolveFromCache env java s info addresses).2 = s := by
  have hdirect : ResolveFromCacheDirect java s info addresses = (ERR_DNS_CACHE_MISS, s) := by
    unfold ResolveFromCacheDirect
    cases hinit : s.j_host_resolver_uninitialized with
    | true => rfl
    | false =>
      rcases hmiss with h | h | h
      · rw [hinit] at h
        exact absurd h (by decide)
      · simp [h, ConvertIpJava2Native]
      · simp [h, ConvertIpJava2Native]
  have hall : ResolveFromCache env java s info addresses = (ERR_DNS_CACHE_MISS, s) := by
    simp [ResolveFromCache, hmode, ResolveFromCacheWithTask, DoResolveCacheInJava, hdirect,
      ERR_DNS_CACHE_MISS, OK]
  rw [hall]
  exact ⟨rfl, rfl, rfl⟩

/-- Witness of `ResolveFromCache_miss`: "unknown.test", for which the sample
foreign cache returns no array. -/
theorem ResolveFromCache_miss_witness :
    (ResolveFromCache sampleEnv sampleJava sampleState
        (RequestInfo.mk "unknown.test" 443) 100).1 = ERR_DNS_CACHE_MISS ∧
    (ResolveFromCache sampleEnv sampleJava sampleState
        (RequestInfo.mk "unknown.test" 443) 100).2.mem 100 = sampleState.mem 100 ∧
    (ResolveFromCache sampleEnv sampleJava sampleState
        (RequestInfo.mk "unknown.test" 443) 100).2 = sampleState :=
  ResolveFromCache_miss sampleEnv sampleJava sampleState (RequestInfo.mk "unknown.test" 443) 100
    rfl (Or.inr (Or.inl (by simp [sampleJava])))

/-! ## Resolve, dispatch, foreign completion, delivery -/

/-- A foreign side whose `resolve` answers with the pending status. -/
def pendingJava : Java where
  resolve := fun _ _ => ERR_IO_PENDING
  resolveCache := fun _ => none

/-- The scenario of C12 with the foreign `resolve` answering `ERR_IO_PENDING`:
`Resolve` of "a.test" at clock reading 1, the dispatch, the foreign completion
`OnResolved(OK, [10.0.0.1], 1)`, and `orig_runner_` running its two pending
deliveries in the order they were posted. -/
def pendingScenario : List Step :=
  [Step.Resolve (RequestInfo.mk "a.test" 80) 5 100 (some 1) (some none) 1,
   Step.runWorker 0 pendingJava,
   Step.OnResolved OK (some [[10, 0, 0, 1]]) 1,
   Step.runOrig 0,
   Step.runOrig 0]

/-- C12 as stated fails: when the foreign `resolve` returns the pending status,
`DoResolveInJava` takes it for a failure (`jReturn != OK`) and posts an error
delivery.  That delivery is ahead of the one the foreign completion posts, so
the callback is run once with `ERR_IO_PENDING`, not with `OK`, and the output
buffer is never written; the completion then finds no request. -/
theorem pending_dispatch_delivers_pending_status :
    (run sampleEnv (State.constructed false emptyMem) (pendingScenario.take 3)).map
        (fun s => s.orig_tasks)
      = some [OrigTask.mk 1 ERR_IO_PENDING none,
              OrigTask.mk 1 OK (some [IPEndPoint.mk [10, 0, 0, 1] 0])] ∧
    (run sampleEnv (State.constructed false emptyMem) pendingScenario).map
        (fun s => s.callback_runs) = some [(1, ERR_IO_PENDING)] ∧
    (run sampleEnv (State.constructed false emptyMem) pendingScenario).map
        (fun s => s.mem 100) = some [] ∧
    (run sampleEnv (State.constructed false emptyMem) pendingScenario).map
        (fun s => s.callback_runs) ≠ some [(1, OK)] ∧
    (run sampleEnv (State.constructed false emptyMem) pendingScenario).map
        (fun s => s.mem 100) ≠ some [IPEndPoint.mk [10, 0, 0, 1] 80] := by
  refine ⟨rfl, rfl, rfl, ?_, ?_⟩
  · have h : (run sampleEnv (State.constructed false emptyMem) pendingScenario).map
        (fun s => s.callback_runs) = some [(1, ERR_IO_PENDING)] := rfl
    rw [h]
    decide
  · have h : (run sampleEnv (State.constructed false emptyMem) pendingScenario).map
        (fun s => s.mem 100) = some [] := rfl
    rw [h]
    decide

/-- The scenario of C12 with the foreign `resolve` accepting the work: one
`Resolve` at clock reading `now`, its dispatch, the foreign completion with `OK`
and the array `raw` for the id `now`, and the delivery. -/
def acceptedScenario (java : Java) (info : RequestInfo) (priority : RequestPriority)
    (addresses : Nat) (c : Nat) (out_req : OutReq) (now : Int) (raw : List JByteArray) :
    List Step :=
  [Step.Resolve info priority addresses (some c) out_req now,
   Step.runWorker 0 java,
   Step.OnResolved OK (some raw) now,
   Step.runOrig 0]

/-- C12, amended: on a freshly constructed resolver with an initialised foreign
handle, for every valid hostname, port, priority, buffer, callback `c`, clock
reading `now` and non-empty foreign array `raw`: after `Resolve`, a dispatch in
which the foreign `resolve` returns `OK`, the foreign completion
`OnResolved(OK, raw, now)` and its delivery, `c` has been run exactly once, with
`OK`; the buffer holds the addresses of `raw` in order, each with the requested
port; every other buffer is as it was; and the registry no longer holds `now`. -/
theorem accepted_dispatch_completion_delivers (env : Env) (java : Java)
    (mem : Nat → AddressList) (info : RequestInfo) (priority : RequestPriority)
    (addresses : Nat) (c : Nat) (out_req : OutReq) (now : Int) (raw : List JByteArray)
    (hvalid : (env.DNSDomainFromDot info.hostname).isSome = true)
    (haccept : java.resolve info.hostname now = OK)
    (hne : raw ≠ []) :
    ∃ s', run env (State.constructed false mem)
          (acceptedScenario java info priority addresses c out_req now raw) = some s' ∧
      s'.callback_runs = [(c, OK)] ∧
      s'.mem addresses = raw.map (endpointOf info.port) ∧
      (∀ b, b ≠ addresses → s'.mem b = mem b) ∧
      Registry.find now s'.requests_ = none := by
  obtain ⟨d, hd⟩ := Option.isSome_iff_exists.mp hvalid
  have hconv := ConvertIpJava2Native_nonempty raw hne
  have hbuf : AddressList.CopyWithPort (raw.map (endpointOf 0)) info.port
      = raw.map (endpointOf info.port) := by
    simp [AddressList.CopyWithPort, endpointOf]
  refine ⟨State.mk false false [] 1
    (Function.update mem addresses (raw.map (endpointOf info.port))) [] [] [(c, OK)]
    [(info.hostname, now)] [], ?_, rfl, ?_, ?_, rfl⟩
  · have h1 : step env (State.constructed false mem)
        (Step.Resolve info priority addresses (some c) out_req now)
        = some (State.mk false false
            [Entry.mk now 0 (SavedRequest.mk info priority (some c) addresses now false)] 1
            mem [WorkerTask.mk 0 now] [] [] [] []) := by
      simp [step, Resolve, State.constructed, hd, Registry.insert, Registry.find,
        SavedRequest.create]
    have h2 : step env (State.mk false false
            [Entry.mk now 0 (SavedRequest.mk info priority (some c) addresses now false)] 1
            mem [WorkerTask.mk 0 now] [] [] [] []) (Step.runWorker 0 java)
        = some (State.mk false false
            [Entry.mk now 0 (SavedRequest.mk info priority (some c) addresses now true)] 1
            mem [] [] [] [(info.hostname, now)] []) := by
      simp [step, DoResolveInJava, Registry.deref, haccept, Registry.modifyPtr,
        SavedRequest.sent_to_java]
    have h3 : step env (State.mk false false
            [Entry.mk now 0 (SavedRequest.mk info priority (some c) addresses now true)] 1
            mem [] [] [] [(info.hostname, now)] []) (Step.OnResolved OK (some raw) now)
        = some (State.mk false false
            [Entry.mk now 0 (SavedRequest.mk info priority (some c) addresses now true)] 1
            mem [] [OrigTask.mk now OK (some (raw.map (endpointOf 0)))] []
            [(info.hostname, now)] []) := by
      simp [step, OnResolved, hconv]
    have h4 : step env (State.mk false false
            [Entry.mk now 0 (SavedRequest.mk info priority (some c) addresses now true)] 1
            mem [] [OrigTask.mk now OK (some (raw.map (endpointOf 0)))] []
            [(info.hostname, now)] []) (Step.runOrig 0)
        = some (State.mk false false [] 1
            (Function.update mem addresses (raw.map (endpointOf info.port))) [] [] [(c, OK)]
            [(info.hostname, now)] []) := by
      simp [step, origOnResolved, Registry.find, SavedRequest.OnResolved,
        SavedRequest.was_canceled, SavedRequest.Cancel, Run, Registry.erase, Registry.modify,
        hbuf]
    simp only [acceptedScenario, run, h1, h2, h3, h4]
  · simp
  · intro b hb
    simp [Function.update, hb]

/-- Witness of `accepted_dispatch_completion_delivers`: "a.test" on port 80 at
clock reading 1, completed with the single address 10.0.0.1. -/
theorem accepted_dispatch_completion_delivers_witness :
    ∃ s', run sampleEnv (State.constructed false emptyMem)
          (acceptedScenario sampleJava (RequestInfo.mk "a.test" 80) 5 100 1 (some none) 1
            [[10, 0, 0, 1]]) = some s' ∧
      s'.callback_runs = [(1, OK)] ∧
      s'.mem 100 = [[10, 0, 0, 1]].map (endpointOf (RequestInfo.mk "a.test" 80).port) ∧
      (∀ b, b ≠ 100 → s'.mem b = emptyMem b) ∧
      Registry.find 1 s'.requests_ = none :=
  accepted_dispatch_completion_delivers sampleEnv sampleJava emptyMem
    (RequestInfo.mk "a.test" 80) 5 100 1 (some none) 1 [[10, 0, 0, 1]]
    (by simp [sampleEnv]) rfl (by simp)

/-! ## Two Resolve calls -/

theorem Resolve_bridge_mode_kept (env : Env) (s : State) (info : RequestInfo)
    (priority : RequestPriority) (addresses : Nat) (callback : CompletionCallback)
    (out_req : OutReq) (now : Int) :
    (Resolve env s info priority addresses callback out_req now).2.1._use_backup
      = s._use_backup := by
  unfold Resolve
  cases hmode : s._use_backup with
  | true => simp [hmode]
  | false =>
    cases hd : env.DNSDomainFromDot info.hostname with
    | none => simp [hmode]
    | some d => simp [hmode]

/-- Two `Resolve` calls in bridge mode with valid hostnames that observe two
different clock readings, neither of them a key of the registry yet: the ids
bound to the two handles are the two readings, and after the second call both
requests are in the registry under their own ids. -/
theorem Resolve_twice_distinct_readings (env : Env) (s : State)
    (info1 info2 : RequestInfo) (priority1 priority2 : RequestPriority)
    (addresses1 addresses2 : Nat) (callback1 callback2 : CompletionCallback)
    (out1 out2 : Option Request) (now1 now2 : Int)
    (hmode : s._use_backup = false)
    (hvalid1 : (env.DNSDomainFromDot info1.hostname).isSome = true)
    (hvalid2 : (env.DNSDomainFromDot info2.hostname).isSome = true)
    (hfresh1 : Registry.find now1 s.requests_ = none)
    (hfresh2 : Registry.find now2 s.requests_ = none)
    (hne : now1 ≠ now2) :
    Registry.find now1
        (Resolve env
          (Resolve env s info1 priority1 addresses1 callback1 (some out1) now1).2.1
          info2 priority2 addresses2 callback2 (some out2) now2).2.1.requests_
      = some (Entry.mk now1 s.next_ptr
          (SavedRequest.mk info1 priority1 callback1 addresses1 now1 false)) ∧
    Registry.find now2
        (Resolve env
          (Resolve env s info1 priority1 addresses1 callback1 (some out1) now1).2.1
          info2 priority2 addresses2 callback2 (some out2) now2).2.1.requests_
      = some (Entry.mk now2
          (Resolve env s info1 priority1 addresses1 callback1 (some out1) now1).2.1.next_ptr
          (SavedRequest.mk info2 priority2 callback2 addresses2 now2 false)) := by
  have h1 := Resolve_bridge_fresh_key env s info1 priority1 addresses1 callback1 out1 now1
    hmode hvalid1 hfresh1
  have hmode1 : (Resolve env s info1 priority1 addresses1 callback1 (some out1) now1).2.1._use_backup
      = false := by rw [Resolve_bridge_mode_kept]; exact hmode
  have hfresh : Registry.find now2
      (Resolve env s info1 priority1 addresses1 callback1 (some out1) now1).2.1.requests_
        = none := by
    rw [h1.2.2.2 now2 (Ne.symm hne)]; exact hfresh2
  have h2 := Resolve_bridge_fresh_key env
    (Resolve env s info1 priority1 addresses1 callback1 (some out1) now1).2.1
    info2 priority2 addresses2 callback2 out2 now2 hmode1 hvalid2 hfresh
  refine ⟨?_, h2.2.2.1⟩
  rw [h2.2.2.2 now1 hne]
  exact h1.2.2.1

/-- C13, evaluated where it fails: two `Resolve` calls on a freshly constructed
resolver in bridge mode, for "a.test" and "b.test", both observing the clock
reading 5.  Both handles are bound to the id 5, and after the second call the
registry holds one request only, the one for "a.test"; no id leads to the
request for "b.test". -/
theorem Resolve_twice_same_clock_reading_same_id :
    (Resolve sampleEnv (State.constructed false emptyMem)
        (RequestInfo.mk "a.test" 80) 0 100 (some 1) (some none) 5).2.2
      = some (some (Request.RequestForCaller 5)) ∧
    (Resolve sampleEnv
        (Resolve sampleEnv (State.constructed false emptyMem)
          (RequestInfo.mk "a.test" 80) 0 100 (some 1) (some none) 5).2.1
        (RequestInfo.mk "b.test" 443) 0 200 (some 2) (some none) 5).2.2
      = some (some (Request.RequestForCaller 5)) ∧
    (Resolve sampleEnv
        (Resolve sampleEnv (State.constructed false emptyMem)
          (RequestInfo.mk "a.test" 80) 0 100 (some 1) (some none) 5).2.1
        (RequestInfo.mk "b.test" 443) 0 200 (some 2) (some none) 5).2.1.requests_
      = [Entry.mk 5 0 (SavedRequest.mk (RequestInfo.mk "a.test" 80) 0 (some 1) 100 5 false)] ∧
    ∀ j : Int,
      (Registry.find j
        (Resolve sampleEnv
          (Resolve sampleEnv (State.constructed false emptyMem)
            (RequestInfo.mk "a.test" 80) 0 100 (some 1) (some none) 5).2.1
          (RequestInfo.mk "b.test" 443) 0 200 (some 2) (some none) 5).2.1.requests_).map
        (fun e => e.obj.info_.hostname) ≠ some "b.test" := by
  have hreg : (Resolve sampleEnv
        (Resolve sampleEnv (State.constructed false emptyMem)
          (RequestInfo.mk "a.test" 80) 0 100 (some 1) (some none) 5).2.1
        (RequestInfo.mk "b.test" 443) 0 200 (some 2) (some none) 5).2.1.requests_
      = [Entry.mk 5 0 (SavedRequest.mk (RequestInfo.mk "a.test" 80) 0 (some 1) 100 5 false)] := by
    simp [Resolve, sampleEnv, State.constructed, Registry.insert, Registry.find,
      SavedRequest.create]
  refine ⟨?_, ?_, hreg, ?_⟩
  · simp [Resolve, sampleEnv, State.constructed]
  · simp [Resolve, sampleEnv, State.constructed]
  · intro j
    rw [hreg, Registry.find_cons]
    by_cases hj : (5 : Int) = j
    · simp [hj]
    · simp [hj, Registry.find]

/-! ## The registry lock -/

/-- What an operation does, as far as the lock `reqGuard` is concerned: taking
and giving back the lock (`Acquire()` or the constructor of `base::AutoLock`,
`Release()` or its destructor), an access to `requests_` (insert, find, erase),
a run of a user callback, a call into the foreign subsystem, a delegation to the
backup resolver, and the posting of a task. -/
inductive Event where
  | acquire
  | release
  | access
  | callback (c : Nat) (status : Int)
  | foreignCall
  | delegate
  | post
deriving DecidableEq, Repr

/-- The events of `callback.Run(status)`. -/
def Run_events (callback : CompletionCallback) (status : Int) : List Event :=
  match callback with
  | some c => [Event.callback c status]
  | none => []

/-- The events of `SavedRequest::OnResolved`, in the order of the source. -/
def SavedRequest.OnResolved_events (r : SavedRequest) (status : Int) : List Event :=
  if !r.was_canceled then Run_events r.callback_ status else []

/-- The events of `HostResolverTenta::origOnResolved`: the `AutoLock` is taken on
entry and given back when the function returns; in between come the `find`,
and, when the request is found, `SavedRequest::OnResolved` and the `erase`. -/
def origOnResolved_events (s : State) (forRequestId : Int) (error : Int) : List Event :=
  [Event.acquire, Event.access] ++
    (match Registry.find forRequestId s.requests_ with
     | some it => it.obj.OnResolved_events error ++ [Event.access]
     | none => []) ++
    [Event.release]

/-- The events of `HostResolverTenta::OnError`: the delivery is posted. -/
def OnError_events : List Event := [Event.post]

/-- The events of `HostResolverTenta::CancelRequest`: the `AutoLock` spans the
`find`, the `Cancel()` and the `erase`. -/
def CancelRequest_events (s : State) (key_id : Int) : List Event :=
  [Event.acquire, Event.access] ++
    (match Registry.find key_id s.requests_ with
     | some it => if !it.obj.Cancel.was_sent_to_java then [Event.access] else []
     | none => []) ++
    [Event.release]

/-- The events of `HostResolverTenta::Resolve`: `reqGuard.Acquire()`, the
`insert`, `reqGuard.Release()`, and then the posting of the dispatch. -/
def Resolve_events (env : Env) (s : State) (info : RequestInfo) : List Event :=
  if s._use_backup then [Event.delegate]
  else
    match env.DNSDomainFromDot info.hostname with
    | none => []
    | some _ => [Event.acquire, Event.access, Event.release, Event.post]

/-- The events of `HostResolverTenta::DoResolveInJava`, which never takes the
lock; `none` is the undefined behaviour of `DoResolveInJava`. -/
def DoResolveInJava_events (java : Java) (s : State) (request : Nat) (key_id : Int) :
    Option (List Event) :=
  if !s.j_host_resolver_uninitialized then
    match Registry.deref request s.requests_ with
    | none => none
    | some r =>
      if java.resolve r.info_.hostname key_id ≠ OK then
        some ([Event.foreignCall] ++ OnError_events)
      else some [Event.foreignCall]
  else some OnError_events

/-- The scan behind `lockDiscipline`; `locked` tells whether the lock is held. -/
def lockScan (locked : Bool) : List Event → Bool
  | [] => true
  | Event.acquire :: rest => lockScan true rest
  | Event.release :: rest => lockScan false rest
  | Event.callback _ _ :: rest => !locked && lockScan locked rest
  | Event.foreignCall :: rest => !locked && lockScan locked rest
  | _ :: rest => lockScan locked rest

/-- No callback and no foreign call between an acquire and its release. -/
def lockDiscipline (events : List Event) : Bool :=
  lockScan false events

/-- The callbacks run in a sequence of events, in order. -/
def callbacksOf : List Event → List (Nat × Int)
  | [] => []
  | Event.callback c status :: rest => (c, status) :: callbacksOf rest
  | _ :: rest => callbacksOf rest

theorem callbacksOf_append (xs ys : List Event) :
    callbacksOf (xs ++ ys) = callbacksOf xs ++ callbacksOf ys := by
  induction xs with
  | nil => rfl
  | cons e rest ih => cases e <;> simp [callbacksOf, ih]

/-- The callback events of a delivery are the callback runs of `origOnResolved`. -/
theorem origOnResolved_events_callbacks (s : State) (id : Int) (status : Int)
    (addr_list : Option AddressList) :
    (origOnResolved s id status addr_list).callback_runs
      = s.callback_runs ++ callbacksOf (origOnResolved_events s id status) := by
  unfold origOnResolved origOnResolved_events
  cases hfind : Registry.find id s.requests_ with
  | none => simp [callbacksOf]
  | some it =>
    cases hcb : it.obj.callback_ with
    | none =>
      simp [SavedRequest.OnResolved, SavedRequest.OnResolved_events, SavedRequest.was_canceled,
        hcb, callbacksOf]
    | some c =>
      simp [SavedRequest.OnResolved, SavedRequest.OnResolved_events, SavedRequest.was_canceled,
        hcb, callbacksOf, Run, Run_events]

/-- `Resolve` keeps the discipline: the lock is given back before the dispatch is posted. -/
theorem Resolve_events_lockDiscipline (env : Env) (s : State) (info : RequestInfo) :
    lockDiscipline (Resolve_events env s info) = true := by
  unfold Resolve_events
  cases s._use_backup with
  | true => rfl
  | false =>
    cases env.DNSDomainFromDot info.hostname with
    | none => rfl
    | some d => rfl

/-- `CancelRequest` keeps the discipline: it runs no callback at all. -/
theorem CancelRequest_events_lockDiscipline (s : State) (key_id : Int) :
    lockDiscipline (CancelRequest_events s key_id) = true := by
  unfold CancelRequest_events
  cases Registry.find key_id s.requests_ with
  | none => rfl
  | some it =>
    cases hsent : it.obj.Cancel.was_sent_to_java with
    | true => simp [lockDiscipline, lockScan, hsent]
    | false => simp [lockDiscipline, lockScan, hsent]

/-- `DoResolveInJava` keeps the discipline: it never takes the lock. -/
theorem DoResolveInJava_events_lockDiscipline (java : Java) (s : State) (request : Nat)
    (key_id : Int) (events : List Event)
    (h : DoResolveInJava_events java s request key_id = some events) :
    lockDiscipline events = true := by
  unfold DoResolveInJava_events at h
  cases hinit : s.j_host_resolver_uninitialized with
  | true =>
    simp only [hinit, Bool.not_true, Bool.false_eq_true, if_false, Option.some.injEq] at h
    subst h
    rfl
  | false =>
    simp only [hinit, Bool.not_false, if_true] at h
    cases hderef : Registry.deref request s.requests_ with
    | none => simp [hderef] at h
    | some r =>
      simp only [hderef] at h
      by_cases hj : java.resolve r.info_.hostname key_id = OK
      · simp only [hj, ne_eq, not_true_eq_false, if_false, Option.some.injEq] at h
        subst h
        rfl
      · simp only [ne_eq, hj, not_false_eq_true, if_true, Option.some.injEq] at h
        subst h
        rfl

/-- A delivery keeps the discipline exactly when it runs no callback: when the
id is absent or the request was cancelled. -/
theorem origOnResolved_events_lockDiscipline (s : State) (id : Int) (status : Int) :
    lockDiscipline (origOnResolved_events s id status)
      = match Registry.find id s.requests_ with
        | some it => it.obj.callback_.isNone
        | none => true := by
  unfold origOnResolved_events
  cases hfind : Registry.find id s.requests_ with
  | none => rfl
  | some it =>
    cases hcb : it.obj.callback_ with
    | none =>
      simp [SavedRequest.OnResolved_events, SavedRequest.was_canceled, hcb, lockDiscipline,
        lockScan]
    | some c =>
      simp [SavedRequest.OnResolved_events, SavedRequest.was_canceled, hcb, lockDiscipline,
        lockScan, Run_events]

/-- C14, evaluated where it fails: the delivery of `(OK, [10.0.0.1])` for id 2 of
`sampleState`, whose request holds the callback 8.  `origOnResolved` takes the
lock, finds the request, runs the callback, erases the entry and only then gives
the lock back: the callback event lies between the acquire and its release.
(`Resolve` on the same state gives the lock back before it does anything else.) -/
theorem origOnResolved_runs_callback_under_lock :
    Registry.find 2 sampleState.requests_
      = some (Entry.mk 2 1
          (SavedRequest.mk (RequestInfo.mk "b.test" 443) 0 (some 8) 200 2 false)) ∧
    origOnResolved_events sampleState 2 OK
      = [Event.acquire, Event.access, Event.callback 8 OK, Event.access, Event.release] ∧
    (origOnResolved sampleState 2 OK (some [IPEndPoint.mk [10, 0, 0, 1] 0])).callback_runs
      = [(8, OK)] ∧
    lockDiscipline (origOnResolved_events sampleState 2 OK) = false ∧
    Resolve_events sampleEnv sampleState (RequestInfo.mk "c.test" 80)
      = [Event.acquire, Event.access, Event.release, Event.post] ∧
    lockDiscipline (Resolve_events sampleEnv sampleState (RequestInfo.mk "c.test" 80)) = true := by
  refine ⟨by decide, by decide, by decide, by decide, ?_, ?_⟩ <;>
    simp [Resolve_events, sampleEnv, sampleState, State.constructed, lockDiscipline, lockScan]

/-! ## A dispatch after the cancellation -/

/-- In `sampleRun` the `CancelRequest` step finds the request holding the
callback 2 in the registry, not yet dispatched; so the callback 2 is never run. -/
theorem sampleRun_cancelled_callback_not_run : invocations 2 sampleRunEnd = 0 :=
  (callback_run_at_most_once sampleEnv false emptyMem sampleRun sampleRunEnd 2 rfl
      (by decide)).2
    (sampleRun.take 2) (sampleRun.drop 3) 6
    { State.constructed false emptyMem with
      requests_ :=
        [Entry.mk 6 1 (SavedRequest.mk (RequestInfo.mk "b.test" 443) 0 (some 2) 200 6 false),
         Entry.mk 5 0 (SavedRequest.mk (RequestInfo.mk "a.test" 80) 0 (some 1) 100 5 false)]
      next_ptr := 2
      worker_tasks := [WorkerTask.mk 0 5, WorkerTask.mk 1 6] }
    (Entry.mk 6 1 (SavedRequest.mk (RequestInfo.mk "b.test" 443) 0 (some 2) 200 6 false))
    rfl rfl (by decide) rfl rfl

/-- With an initialised foreign handle, for every valid hostname: `Resolve`,
then `CancelRequest` of its id before the dispatch, then the dispatch `Resolve`
posted.  `CancelRequest` has erased and deleted the request, which was not yet
sent to the foreign side, and the dispatch reads through its pointer: the run
has no defined outcome. -/
theorem dispatch_after_cancel_undefined (env : Env) (java : Java) (mem : Nat → AddressList)
    (info : RequestInfo) (priority : RequestPriority) (addresses : Nat)
    (callback : CompletionCallback) (out_req : OutReq) (now : Int)
    (hvalid : (env.DNSDomainFromDot info.hostname).isSome = true) :
    run env (State.constructed false mem)
        [Step.Resolve info priority addresses callback out_req now,
         Step.CancelRequest now] =
      some (State.mk false false [] 1 mem [WorkerTask.mk 0 now] [] [] [] []) ∧
    run env (State.constructed false mem)
        [Step.Resolve info priority addresses callback out_req now,
         Step.CancelRequest now,
         Step.runWorker 0 java] = none := by
  obtain ⟨d, hd⟩ := Option.isSome_iff_exists.mp hvalid
  have h1 : step env (State.constructed false mem)
      (Step.Resolve info priority addresses callback out_req now)
      = some (State.mk false false
          [Entry.mk now 0 (SavedRequest.mk info priority callback addresses now false)] 1
          mem [WorkerTask.mk 0 now] [] [] [] []) := by
    simp [step, Resolve, State.constructed, hd, Registry.insert, Registry.find,
      SavedRequest.create]
  have h2 : step env (State.mk false false
          [Entry.mk now 0 (SavedRequest.mk info priority callback addresses now false)] 1
          mem [WorkerTask.mk 0 now] [] [] [] []) (Step.CancelRequest now)
      = some (State.mk false false [] 1 mem [WorkerTask.mk 0 now] [] [] [] []) := by
    simp [step, CancelRequest, Registry.find, SavedRequest.Cancel,
      SavedRequest.was_sent_to_java, Registry.erase, Registry.modify]
  have h3 : step env (State.mk false false [] 1 mem [WorkerTask.mk 0 now] [] [] [] [])
      (Step.runWorker 0 java) = none := by
    simp [step, DoResolveInJava, Registry.deref]
  refine ⟨?_, ?_⟩
  · simp only [run, h1, h2]
  · simp only [run, h1, h2, h3]

/-- C4, evaluated where it fails: on a freshly constructed resolver with an
initialised foreign handle, `Resolve` of "a.test" at clock reading 5 with the
callback 1, then `CancelRequest(5)` before the dispatch has run, then the
dispatch.  After the `CancelRequest` the registry is empty, the callback has not
been run, and the dispatch `DoResolveInJava(request 0, 5)` is still pending; the
object it points to is deleted, so running it reads a deleted `SavedRequest`
and the sequence has no defined outcome.  The same happens when the pending
dispatch of the cancelled request is run at the end of `sampleRun`. -/
theorem dispatch_after_cancel_reads_deleted_request :
    (run sampleEnv (State.constructed false emptyMem)
        [Step.Resolve (RequestInfo.mk "a.test" 80) 0 100 (some 1) (some none) 5,
         Step.CancelRequest 5]).map (fun s => s.requests_) = some [] ∧
    (run sampleEnv (State.constructed false emptyMem)
        [Step.Resolve (RequestInfo.mk "a.test" 80) 0 100 (some 1) (some none) 5,
         Step.CancelRequest 5]).map (fun s => s.callback_runs) = some [] ∧
    (run sampleEnv (State.constructed false emptyMem)
        [Step.Resolve (RequestInfo.mk "a.test" 80) 0 100 (some 1) (some none) 5,
         Step.CancelRequest 5]).map (fun s => s.worker_tasks) = some [WorkerTask.mk 0 5] ∧
    (run sampleEnv (State.constructed false emptyMem)
        [Step.Resolve (RequestInfo.mk "a.test" 80) 0 100 (some 1) (some none) 5,
         Step.CancelRequest 5]).map (fun s => Registry.deref 0 s.requests_) = some none ∧
    run sampleEnv (State.constructed false emptyMem)
        [Step.Resolve (RequestInfo.mk "a.test" 80) 0 100 (some 1) (some none) 5,
         Step.CancelRequest 5,
         Step.runWorker 0 sampleJava] = none ∧
    run sampleEnv (State.constructed false emptyMem)
        (sampleRun ++ [Step.runWorker 0 sampleJava]) = none :=
  ⟨rfl, rfl, rfl, rfl, rfl, rfl⟩

end xwalk.tenta
